import Mathlib

/-!
# Community Spotlight Bot — verification of the classification-and-queue core

A shallow embedding of the spotlight bot's core logic (the promotion
classifier `looksLikePromo`, the SQLite-backed submission queue and dedup
store, the publisher `postSpotlight`, and the follow manager `autoFollow`),
together with theorems about the spec's testable properties.

Texts are modelled as `List Char` (mirroring JavaScript strings); the JS
`toLowerCase`/`includes`/`substring`/`trim` operations are modelled
directly on character lists.  Database tables become lists inside a
`BotState` record; `INSERT OR IGNORE` becomes insert-if-absent; external
network calls are driven by an `Env` oracle and recorded in a call trace.
-/

set_option maxRecDepth 100000

namespace SpotlightBot

/-- Shorthand: the character list of a string literal. -/
def cs (s : String) : List Char := s.toList

/-- JS `String.prototype.toLowerCase`, restricted to ASCII case folding
(`Char.toLower`); all keyword patterns in the source are ASCII. -/
def lowerL (l : List Char) : List Char := l.map Char.toLower

/-- `isPrefixL pat l`: `l` starts with `pat` (character-exact). -/
def isPrefixL : List Char → List Char → Bool
  | [], _ => true
  | _ :: _, [] => false
  | p :: ps, c :: cl => p == c && isPrefixL ps cl

/-- JS `haystack.includes(pat)`: `pat` occurs contiguously in the list.
The empty pattern is found in every string, as in JS. -/
def containsSub (pat : List Char) : List Char → Bool
  | [] => pat.isEmpty
  | c :: t => isPrefixL pat (c :: t) || containsSub pat t

/-- `isPrefixCI pat l`: `l` starts with `pat` after lowercasing `l`
(`pat` is given lowercase).  Models a case-insensitive regex match. -/
def isPrefixCI : List Char → List Char → Bool
  | [], _ => true
  | _ :: _, [] => false
  | p :: ps, c :: cl => p == Char.toLower c && isPrefixCI ps cl

/-- Fuel-driven worker for `stripTagCI`; the fuel (initially the list
length) only makes the left-to-right scan structurally recursive — each
step consumes at least one character, so the fuel never runs out. -/
def stripTagCIAux : Nat → List Char → List Char → List Char
  | 0, _, l => l
  | _ + 1, _, [] => []
  | fuel + 1, pat, c :: t =>
    if isPrefixCI pat (c :: t) then stripTagCIAux fuel pat (t.drop (pat.length - 1))
    else c :: stripTagCIAux fuel pat t

/-- JS `text.replace(/pat/gi, '')`: delete every (non-overlapping,
left-to-right) case-insensitive occurrence of `pat`. -/
def stripTagCI (pat l : List Char) : List Char := stripTagCIAux l.length pat l

/-- ASCII whitespace for JS `String.prototype.trim` (the texts involved
use only these whitespace characters). -/
def isWS (c : Char) : Bool := c == ' ' || c == '\n' || c == '\t' || c == '\r'

/-- JS `text.trim()`. -/
def trimL (l : List Char) : List Char :=
  ((l.dropWhile isWS).reverse.dropWhile isWS).reverse

/-- Number of matches of the regex `/https?:\/\//g`.  Because neither
`http://` nor `https://` contains a second `h`, two matches can never
overlap, so the global non-overlapping match count equals the number of
positions at which either alternative matches. -/
def linkCount : List Char → Nat
  | [] => 0
  | c :: t =>
    (if isPrefixL (cs "https://") (c :: t) || isPrefixL (cs "http://") (c :: t)
     then 1 else 0) + linkCount t

/-! ## Keyword configuration (transcribed from the source) -/

/-- `PROMO_KEYWORDS` — weak promotional signals. -/
def PROMO_KEYWORDS : List (List Char) :=
  [cs "launched", cs "built this", cs "made this", cs "working on",
   cs "side project", cs "feedback welcome", cs "check out my",
   cs "just shipped", cs "new project", cs "my app", cs "my game",
   cs "my product", cs "my startup"]

/-- `SPAM_PATTERNS` — the spam/news/shopping denylist.  Note the two
capitalized entries `Bulls` and `Lakers`, transcribed verbatim. -/
def SPAM_PATTERNS : List (List Char) :=
  [cs "cupom", cs "precinho", cs "amazon", cs "iphone", cs "playstation",
   cs "nintendo", cs "preço", cs "oferta", cs "desconto", cs "compre",
   cs "deal", cs "sale",
   cs "lumens", cs "flashlight", cs "rechargeable", cs "pack -",
   cs "camera -", cs "wireless security", cs "night vision", cs "arlo",
   cs "olight",
   cs "breaking:", cs "breaking news", cs "cbs", cs "nbc", cs "nba",
   cs "nfl", cs "sports",
   cs "Bulls", cs "Lakers", cs "game highlights", cs "score",
   cs "final score",
   cs "news:", cs "report:", cs "mayor", cs "election", cs "politics",
   cs "watch:", cs "video:", cs "stream:", cs "live now", cs "tune in",
   cs "laser", cs "filament", cs "3d print", cs "cutting", cs "engraving",
   cs "journal", cs "research paper", cs "academic", cs "university",
   cs "optica.org", cs "summary by", cs "spotlight summary",
   cs "spotlightsunday"]

/-- `BAD_CONTEXT` — commercial/academic context words. -/
def BAD_CONTEXT : List (List Char) :=
  [cs "buy now", cs "order", cs "purchase", cs "shipping", cs "delivery",
   cs "lumens", cs "battery", cs "waterproof", cs "durable", cs "warranty",
   cs "research", cs "study", cs "paper", cs "journal", cs "academic"]

/-- The developer-context words tested inline in the `#spotlight` branch. -/
def DEV_CONTEXT : List (List Char) :=
  [cs "built", cs "made", cs "working on", cs "project", cs "app",
   cs "game", cs "website", cs "startup", cs "launch", cs "feedback",
   cs "beta"]

def promoteTag : List Char := cs "#promote"
def spotlightTag : List Char := cs "#spotlight"
def buildinpublicTag : List Char := cs "#buildinpublic"
def indiehackersTag : List Char := cs "#indiehackers"
def indiedevTag : List Char := cs "#indiedev"
def solopreneurTag : List Char := cs "#solopreneur"

/-- `SPAM_PATTERNS.some(spam => lower.includes(spam))`. -/
def spamHit (lower : List Char) : Bool :=
  SPAM_PATTERNS.any (fun p => containsSub p lower)

/-- `BAD_CONTEXT.some(bad => lower.includes(bad))`. -/
def badContextHit (lower : List Char) : Bool :=
  BAD_CONTEXT.any (fun p => containsSub p lower)

/-- Inline dev-context test of the `#spotlight` branch. -/
def devContextHit (lower : List Char) : Bool :=
  DEV_CONTEXT.any (fun p => containsSub p lower)

/-- `lower.includes('http://') || lower.includes('https://')`. -/
def hasLink (lower : List Char) : Bool :=
  containsSub (cs "http://") lower || containsSub (cs "https://") lower

/-- The tail of `looksLikePromo` from the `text.length < 20` check onward
(everything after the three early spam/context/link rejections). -/
def promoTail (t : List Char) : Bool :=
  if decide (t.length < 20) && !containsSub promoteTag (lowerL t) then false
  else if containsSub promoteTag (lowerL t) then true
  else if containsSub spotlightTag (lowerL t) && devContextHit (lowerL t) then true
  else if containsSub buildinpublicTag (lowerL t) || containsSub indiehackersTag (lowerL t)
      || containsSub indiedevTag (lowerL t) || containsSub solopreneurTag (lowerL t) then true
  else if hasLink (lowerL t)
      && decide (2 ≤ (PROMO_KEYWORDS.filter (fun w => containsSub w (lowerL t))).length) then true
  else false

/-- `looksLikePromo(text)` for a present (non-null) text: the ordered rule
chain — spam denylist, bad context, link-spam, short-text, strong tag,
medium tags, weak link+keyword corroboration. -/
def looksLikePromo (t : List Char) : Bool :=
  if spamHit (lowerL t) then false
  else if badContextHit (lowerL t) then false
  else if decide (2 < linkCount (lowerL t)) then false
  else promoTail t

/-- `looksLikePromo` exactly as written, on a possibly-missing (`null` /
`undefined`) argument.  The first line `(text || '').toLowerCase()`
coalesces a missing text, but the later `text.length < 20` check reads
`.length` from the raw argument and throws a `TypeError` on `null`;
`Except.error ()` models that thrown exception. -/
def looksLikePromoJS (o : Option (List Char)) : Except Unit Bool :=
  if spamHit (lowerL (o.getD [])) then Except.ok false
  else if badContextHit (lowerL (o.getD [])) then Except.ok false
  else if decide (2 < linkCount (lowerL (o.getD []))) then Except.ok false
  else
    match o with
    | none => Except.error ()
    | some t => Except.ok (promoTail t)

example : looksLikePromo (cs "Just shipped my new side project! https://example.com #buildinpublic") = true := by
  rfl

example : looksLikePromo (cs "50% off iPhone 17 cases, use cupom CODE123") = false := by
  rfl

example : looksLikePromo (cs "Buy now #promote our new thing") = false := by
  rfl

example : looksLikePromo (cs "my new project #promote Bulls merch") = true := by
  rfl

example : looksLikePromoJS none = Except.error () := by rfl

/-! ## Persistent state (the four SQLite tables)

The write-only columns (`posted_at`, `followed_at`, and the blocklist's
`handle` / `reason` / `added_at`) are never read anywhere in the source,
so the model keeps only the key sets the code consults. -/

/-- A row of `post_queue` (`id` is the AUTOINCREMENT primary key,
`uri` carries a UNIQUE constraint). -/
structure QueueEntry where
  id : Nat
  author : List Char
  author_did : List Char
  text : List Char
  uri : List Char
  timestamp : Nat
deriving Repr, DecidableEq

/-- The submission record passed to `addToQueue`. -/
structure Submission where
  author : List Char
  authorDid : List Char
  text : List Char
  uri : List Char
  timestamp : Nat
deriving Repr, DecidableEq

/-- The whole database: `posted_uris`, `followed_dids`, `blocklist` (key
columns), `post_queue` rows, and the next AUTOINCREMENT id. -/
structure BotState where
  posted : List (List Char)
  followed : List (List Char)
  blocklist : List (List Char)
  queue : List QueueEntry
  nextId : Nat
deriving Repr, DecidableEq

/-- `SELECT uri FROM posted_uris WHERE uri = ?` turned into a Bool. -/
def isPosted (s : BotState) (uri : List Char) : Bool := s.posted.contains uri

/-- `INSERT OR IGNORE INTO posted_uris` (the insert-if-absent only ever
touches the `posted` table). -/
def markAsPosted (s : BotState) (uri : List Char) : BotState :=
  { s with posted := if s.posted.contains uri then s.posted else s.posted ++ [uri] }

/-- `SELECT did FROM followed_dids WHERE did = ?` turned into a Bool. -/
def isFollowed (s : BotState) (did : List Char) : Bool := s.followed.contains did

/-- `INSERT OR IGNORE INTO followed_dids`. -/
def markAsFollowed (s : BotState) (did : List Char) : BotState :=
  { s with followed := if s.followed.contains did then s.followed else s.followed ++ [did] }

/-- `SELECT did FROM blocklist WHERE did = ?` turned into a Bool. -/
def isBlocked (s : BotState) (did : List Char) : Bool := s.blocklist.contains did

/-- `INSERT OR IGNORE INTO blocklist`. -/
def addToBlocklist (s : BotState) (did : List Char) : BotState :=
  { s with blocklist := if s.blocklist.contains did then s.blocklist else s.blocklist ++ [did] }

/-- `INSERT OR IGNORE INTO post_queue` with the UNIQUE constraint on
`uri`: insert only if no row with this uri exists; a duplicate is
silently ignored and raises nothing. -/
def addToQueue (s : BotState) (sub : Submission) : BotState :=
  if s.queue.any (fun e => e.uri == sub.uri) then s
  else
    { s with
      queue := s.queue ++
        [{ id := s.nextId, author := sub.author, author_did := sub.authorDid,
           text := sub.text, uri := sub.uri, timestamp := sub.timestamp }],
      nextId := s.nextId + 1 }

/-- The row of `e :: l` holding the minimal timestamp (the earliest such
row on ties): the candidate from `l` wins only with a strictly smaller
timestamp. -/
def minFrom (e : QueueEntry) : List QueueEntry → QueueEntry
  | [] => e
  | b :: rest =>
    if (minFrom b rest).timestamp < e.timestamp then minFrom b rest else e

/-- `ORDER BY timestamp ASC LIMIT 1`: the first row holding the minimal
timestamp (stable on ties). -/
def minByTs : List QueueEntry → Option QueueEntry
  | [] => none
  | e :: rest => some (minFrom e rest)

/-- `SELECT * FROM post_queue ORDER BY timestamp ASC LIMIT 1`: a read —
it returns the oldest row and the untouched state. -/
def getNextFromQueue (s : BotState) : Option QueueEntry × BotState :=
  (minByTs s.queue, s)

/-- `DELETE FROM post_queue WHERE id = ?`. -/
def removeFromQueue (s : BotState) (i : Nat) : BotState :=
  { s with queue := s.queue.filter (fun e => e.id != i) }

/-- `SELECT COUNT(*) FROM post_queue`. -/
def getQueueSize (s : BotState) : Nat := s.queue.length

/-! ## External world -/

/-- One outward network call issued by the bot. -/
inductive ExtCall where
  | getProfile (did : List Char)
  | follow (did : List Char)
  | unfollow (did : List Char)
  | post (text : List Char)
  | reply (uri text : List Char)
  | like (uri : List Char)
deriving Repr, DecidableEq

/-- Oracle for the external platform: `profile did = none` means
`agent.getProfile` throws; `some b` means it returns with
`viewer.following` present iff `b`.  `followOk` / `postOk` say whether
`agent.follow` / the publish step (`detectFacets` + `agent.post`)
succeed.  `now` is `Date.now()`; `ownHandle` is `BLUESKY_USERNAME` with
`.bsky.social` already stripped. -/
structure Env where
  profile : List Char → Option Bool
  followOk : Bool
  postOk : Bool
  now : Nat
  ownHandle : List Char

/-- `autoFollow(did)`: returns early on a falsy did or an
already-recorded did; otherwise queries the profile, records a
pre-existing follow, or follows and records.  All thrown errors are
caught, so a failure leaves the store untouched.  The second component
is the trace of external calls issued. -/
def autoFollow (env : Env) (s : BotState) (did : List Char) : BotState × List ExtCall :=
  if did.isEmpty then (s, [])
  else if isFollowed s did then (s, [])
  else
    match env.profile did with
    | none => (s, [ExtCall.getProfile did])
    | some true => (markAsFollowed s did, [ExtCall.getProfile did])
    | some false =>
      if env.followOk then (markAsFollowed s did, [ExtCall.getProfile did, ExtCall.follow did])
      else (s, [ExtCall.getProfile did, ExtCall.follow did])

/-! ## Publisher -/

/-- The hashtag cleanup in `postSpotlight`:
`.replace(/#spotlight/gi, '').replace(/#promote/gi, '').trim()`. -/
def cleanSubmissionText (t : List Char) : List Char :=
  trimL (stripTagCI promoteTag (stripTagCI spotlightTag t))

/-- The truncation step: `maxContentLength = 200`; a longer cleaned text
becomes its first 200 characters with `'...'` appended. -/
def truncateContent (t : List Char) : List Char :=
  if 200 < t.length then t.take 200 ++ cs "..." else t

/-- The rendered spotlight message template. -/
def spotlightTemplate (author content : List Char) : List Char :=
  cs "🌟 Spotlight: @" ++ author ++ cs "\n\n" ++ content ++
  cs "\n\n#IndieSpotlight #SmallCommunities"

/-- `postSpotlight()`: peek the oldest queue entry (no-op when the queue
is empty); clean, truncate and template its text; publish.  On success,
delete the entry by id and auto-follow its author (when the stored
author_did is truthy); on a publish failure the catch block leaves the
queue untouched for a later retry. -/
def postSpotlight (env : Env) (s : BotState) : BotState × List ExtCall :=
  match (getNextFromQueue s).1 with
  | none => (s, [])
  | some sub =>
    let msg := spotlightTemplate sub.author (truncateContent (cleanSubmissionText sub.text))
    if env.postOk then
      let s1 := removeFromQueue ((getNextFromQueue s).2) sub.id
      if sub.author_did.isEmpty then (s1, [ExtCall.post msg])
      else
        let r := autoFollow env s1 sub.author_did
        (r.1, ExtCall.post msg :: r.2)
    else (s, [ExtCall.post msg])

/-! ## Intake -/

/-- A post object as delivered by a discovery source; every field can be
absent, mirroring the `post?.` optional chains. -/
structure Post where
  uri : Option (List Char)
  recordText : Option (List Char)
  text : Option (List Char)
  authorHandle : Option (List Char)
  authorDid : Option (List Char)
deriving Repr, DecidableEq

/-- JS `x || d` on an optional string: the first operand when it is
present and non-empty (truthy), otherwise the default. -/
def jsOrStr (a : Option (List Char)) (d : List Char) : List Char :=
  match a with
  | none => d
  | some l => if l.isEmpty then d else l

/-- `addPostIfRelevant(post)`: guard missing uri, already-posted uri,
missing text, blocked author and the bot's own posts; then classify, and
on a match enqueue, mark the uri posted, and auto-follow the author. -/
def addPostIfRelevant (env : Env) (p : Post) (s : BotState) : BotState × List ExtCall :=
  if !(match p.uri with | none => false | some u => !u.isEmpty) then (s, [])
  else
    let uri := p.uri.getD []
    if isPosted s uri then (s, [])
    else
      let text := jsOrStr p.recordText (jsOrStr p.text [])
      if text.isEmpty then (s, [])
      else
        let handle := jsOrStr p.authorHandle (cs "unknown")
        let did := jsOrStr p.authorDid (cs "unknown")
        if isBlocked s did then (s, [])
        else if handle == env.ownHandle || containsSub env.ownHandle handle then (s, [])
        else if looksLikePromo text then
          let s1 := addToQueue s
            { author := handle, authorDid := did, text := text, uri := uri,
              timestamp := env.now }
          let s2 := markAsPosted s1 uri
          let r := autoFollow env s2 did
          (r.1, r.2)
        else (s, [])

/-- A mention/reply notification as consumed by `checkForSubmissions`. -/
structure Notif where
  reason : List Char
  recordText : Option (List Char)
  authorDid : List Char
  authorHandle : List Char
  uri : List Char
deriving Repr, DecidableEq

/-- The opt-out phrases scanned in mention texts. -/
def OPT_OUT_PHRASES : List (List Char) :=
  [cs "stop", cs "unfollow", cs "dont follow", cs "don\x27t follow",
   cs "opt out", cs "remove me", cs "no bot", cs "unsubscribe"]

def optOutHit (lower : List Char) : Bool :=
  OPT_OUT_PHRASES.any (fun p => containsSub p lower)

/-- One iteration of the notification loop in `checkForSubmissions`:
skip irrelevant reasons and textless records; an opt-out request
blocklists the author, unfollows when currently following, and replies;
otherwise skip posted uris and blocked authors, and on a `#spotlight` /
`#promote` / classifier match enqueue, mark posted, auto-follow, like. -/
def checkNotifStep (env : Env) (n : Notif) (s : BotState) : BotState × List ExtCall :=
  if !(n.reason == cs "mention" || n.reason == cs "reply") then (s, [])
  else
    match n.recordText with
    | none => (s, [])
    | some t =>
      if t.isEmpty then (s, [])
      else if optOutHit (lowerL t) then
        let s1 := addToBlocklist s n.authorDid
        let unfollowCalls :=
          match env.profile n.authorDid with
          | none => [ExtCall.getProfile n.authorDid]
          | some true => [ExtCall.getProfile n.authorDid, ExtCall.unfollow n.authorDid]
          | some false => [ExtCall.getProfile n.authorDid]
        (s1, unfollowCalls ++ [ExtCall.reply n.uri (cs "opt-out confirmation")])
      else if isPosted s n.uri then (s, [])
      else if isBlocked s n.authorDid then (s, [])
      else if containsSub spotlightTag (lowerL t) || containsSub promoteTag (lowerL t)
          || looksLikePromo t then
        let s1 := addToQueue s
          { author := n.authorHandle, authorDid := n.authorDid, text := t,
            uri := n.uri, timestamp := env.now }
        let s2 := markAsPosted s1 n.uri
        let r := autoFollow env s2 n.authorDid
        (r.1, r.2 ++ [ExtCall.like n.uri])
      else (s, [])

/-! ## Helper lemmas -/

/-- `autoFollow` only ever writes the `followed_dids` table. -/
theorem autoFollow_fixes_rest (env : Env) (s : BotState) (did : List Char) :
    (autoFollow env s did).1.queue = s.queue
    ∧ (autoFollow env s did).1.posted = s.posted
    ∧ (autoFollow env s did).1.blocklist = s.blocklist := by
  unfold autoFollow
  repeat' split
  all_goals exact ⟨rfl, rfl, rfl⟩

/-- `minFrom e l` is a member of `e :: l` realizing the minimal
timestamp. -/
theorem minFrom_spec (e : QueueEntry) (l : List QueueEntry) :
    minFrom e l ∈ e :: l
    ∧ ∀ x ∈ e :: l, (minFrom e l).timestamp ≤ x.timestamp := by
  induction l generalizing e with
  | nil =>
    refine ⟨List.mem_cons_self e [], ?_⟩
    intro x hx
    rcases List.mem_cons.mp hx with hx | hx
    · rw [hx]; exact Nat.le_refl _
    · cases hx
  | cons b t ih =>
    obtain ⟨ihmem, ihmin⟩ := ih b
    rw [minFrom]
    by_cases hlt : (minFrom b t).timestamp < e.timestamp
    · rw [if_pos hlt]
      refine ⟨List.mem_cons_of_mem e ihmem, ?_⟩
      intro x hx
      rcases List.mem_cons.mp hx with hx | hx
      · rw [hx]; exact Nat.le_of_lt hlt
      · exact ihmin x hx
    · rw [if_neg hlt]
      refine ⟨List.mem_cons_self e _, ?_⟩
      intro x hx
      rcases List.mem_cons.mp hx with hx | hx
      · rw [hx]
      · exact Nat.le_trans (Nat.le_of_not_lt hlt) (ihmin x hx)

/-- `minByTs` returns a member that realizes the minimal timestamp. -/
theorem minByTs_mem_min {l : List QueueEntry} {e : QueueEntry}
    (h : minByTs l = some e) :
    e ∈ l ∧ ∀ x ∈ l, e.timestamp ≤ x.timestamp := by
  cases l with
  | nil => cases h
  | cons a t =>
    rw [minByTs] at h
    injection h with h
    rw [← h]
    exact minFrom_spec a t

/-- `minByTs` finds an entry whenever the queue is non-empty. -/
theorem minByTs_isSome {l : List QueueEntry} (h : l ≠ []) :
    (minByTs l).isSome = true := by
  cases l with
  | nil => exact absurd rfl h
  | cons a t => rfl

/-- Deleting the row with a given id from a queue whose ids are distinct
removes exactly that row and keeps every other row. -/
theorem filter_out_id {l : List QueueEntry} {e : QueueEntry}
    (hid : (l.map QueueEntry.id).Nodup) (he : e ∈ l) :
    (l.filter (fun x => x.id != e.id)).length + 1 = l.length
    ∧ e ∉ l.filter (fun x => x.id != e.id)
    ∧ ∀ x ∈ l, x ≠ e → x ∈ l.filter (fun x => x.id != e.id) := by
  induction l with
  | nil => cases he
  | cons a t ih =>
    rw [List.map_cons, List.nodup_cons] at hid
    obtain ⟨hida, hidt⟩ := hid
    rcases List.mem_cons.mp he with he | he
    · subst he
      have hkeep : t.filter (fun x => x.id != e.id) = t := by
        apply List.filter_eq_self.mpr
        intro x hx
        have hne : x.id ≠ e.id := by
          intro hxe
          exact hida (hxe ▸ List.mem_map_of_mem QueueEntry.id hx)
        simpa [bne_iff_ne]
      have hstep : (e :: t).filter (fun x => x.id != e.id) = t := by
        rw [List.filter_cons]
        simp [hkeep]
      rw [hstep]
      refine ⟨rfl, ?_, ?_⟩
      · intro hmem
        exact hida (List.mem_map_of_mem QueueEntry.id hmem)
      · intro x hx hxe
        rcases List.mem_cons.mp hx with hx | hx
        · exact absurd hx hxe
        · exact hx
    · have haid : a.id ≠ e.id := by
        intro hae
        exact hida (hae ▸ List.mem_map_of_mem QueueEntry.id he)
      have hane : a ≠ e := fun hae => haid (hae ▸ rfl)
      have hstep : (a :: t).filter (fun x => x.id != e.id)
          = a :: t.filter (fun x => x.id != e.id) := by
        rw [List.filter_cons]
        simp [bne_iff_ne, haid]
      obtain ⟨ih1, ih2, ih3⟩ := ih hidt he
      rw [hstep]
      refine ⟨?_, ?_, ?_⟩
      · simp only [List.length_cons]
        omega
      · intro hmem
        rcases List.mem_cons.mp hmem with hmem | hmem
        · exact hane hmem.symm
        · exact ih2 hmem
      · intro x hx hxe
        rcases List.mem_cons.mp hx with hx | hx
        · exact hx ▸ List.mem_cons_self a _
        · exact List.mem_cons_of_mem a (ih3 x hx hxe)

/-! ## Claim C2 — strong-signal acceptance -/

/-- A text that fails the bad-context filter while carrying `#promote`
and no spam hit: the claim predicts acceptance, the code rejects. -/
def c2CexText : List Char := cs "Buy now #promote our new thing"

/-- C2 (counterexample): the claim "a text containing `#promote` and no
denylisted spam substring is accepted" is false — `looksLikePromo`
rejects this text (which carries `#promote` and hits no spam pattern)
because of the `BAD_CONTEXT` check that runs before the strong-signal
acceptance. -/
theorem looksLikePromo_promote_not_sufficient :
    containsSub promoteTag (lowerL c2CexText) = true
    ∧ spamHit (lowerL c2CexText) = false
    ∧ badContextHit (lowerL c2CexText) = true
    ∧ looksLikePromo c2CexText = false :=
  ⟨rfl, rfl, rfl, rfl⟩

/-- C2 (amended): a text containing the strong-signal tag `#promote` is
accepted provided it additionally passes the three earlier hard-reject
filters: no spam-denylist hit, no bad-context hit, and at most two URL
scheme occurrences. -/
theorem looksLikePromo_promote_accepts (t : List Char)
    (h1 : spamHit (lowerL t) = false)
    (h2 : badContextHit (lowerL t) = false)
    (h3 : linkCount (lowerL t) ≤ 2)
    (h4 : containsSub promoteTag (lowerL t) = true) :
    looksLikePromo t = true := by
  have h3' : ¬(2 < linkCount (lowerL t)) := Nat.not_lt.mpr h3
  simp [looksLikePromo, promoTail, h1, h2, h3', h4]

/-- C2 witness: the amended theorem applied to a concrete text. -/
theorem looksLikePromo_promote_accepts_witness :
    spamHit (lowerL (cs "hello #promote world")) = false
    ∧ linkCount (lowerL (cs "hello #promote world")) ≤ 2
    ∧ looksLikePromo (cs "hello #promote world") = true :=
  ⟨rfl, by decide, looksLikePromo_promote_accepts _ rfl rfl (by decide) rfl⟩

/-! ## Claim C5 — denylist rejection -/

/-- The spec's denylist-hit scenario text. -/
def c5Text : List Char := cs "50% off iPhone 17 cases, use cupom CODE123"

/-- A text that contains the denylisted substring `Bulls` verbatim (so
certainly case-insensitively) yet is accepted, because the two
capitalized `SPAM_PATTERNS` entries are compared verbatim against the
lowercased text and can never match. -/
def c5CexText : List Char := cs "my new project #promote Bulls merch"

/-- C5 (counterexample): the claim "any text containing a denylisted
spam substring case-insensitively is rejected" is false — `Bulls` is a
denylist entry, this text contains it, and the classifier accepts. -/
theorem looksLikePromo_capitalized_pattern_unmatched :
    cs "Bulls" ∈ SPAM_PATTERNS
    ∧ containsSub (lowerL (cs "Bulls")) (lowerL c5CexText) = true
    ∧ looksLikePromo c5CexText = true :=
  ⟨by decide, rfl, rfl⟩

/-- C5 (amended): a text whose lowercased form contains some
`SPAM_PATTERNS` entry verbatim (the matching the code performs) is
rejected regardless of any other content. -/
theorem looksLikePromo_spam_rejects (t : List Char)
    (h : spamHit (lowerL t) = true) :
    looksLikePromo t = false := by
  simp [looksLikePromo, h]

/-- C5 witness: the spec's own scenario text is rejected via its
denylist hit. -/
theorem looksLikePromo_spam_rejects_witness :
    spamHit (lowerL c5Text) = true ∧ looksLikePromo c5Text = false :=
  ⟨rfl, looksLikePromo_spam_rejects c5Text rfl⟩

/-! ## Claim C6 — short, empty and missing texts -/

/-- C6: a missing (`null`/`undefined`) text makes `looksLikePromo` throw
(`text.length` on `null`) instead of returning `false`; a present short
text without `#promote`, the empty text included, is rejected
normally. -/
theorem looksLikePromoJS_short_and_missing :
    looksLikePromoJS none = Except.error ()
    ∧ looksLikePromoJS (some []) = Except.ok false
    ∧ looksLikePromoJS (some (cs "tiny post")) = Except.ok false :=
  ⟨rfl, rfl, rfl⟩

/-! ## Claim C3 — truncation -/

/-- The 500-character cleaned body of the spec's truncation scenario. -/
def c3Body : List Char := List.replicate 500 'a'

/-- C3 (counterexample): the claim predicts a 210-character rendered
body (290-character budget minus 80-character overhead) for a
500-character cleaned body; the code produces 203 characters (a fixed
200-character cut plus the 3-character ellipsis). -/
theorem truncateContent_not_budget_derived :
    (truncateContent c3Body).length = 203
    ∧ ¬(truncateContent c3Body).length = 210
    ∧ cs "..." <:+ truncateContent c3Body := by
  refine ⟨by decide, by decide, ?_⟩
  have h : truncateContent c3Body = c3Body.take 200 ++ cs "..." := by decide
  rw [h]
  exact List.suffix_append _ _

/-- C3 (amended): the publisher truncates with the hard-coded
`maxContentLength = 200`: any cleaned body longer than 200 characters
renders as exactly 203 characters (200 kept + `'...'`) ending in the
ellipsis marker; no `limit - overhead` computation appears. -/
theorem truncateContent_fixed_cut (t : List Char) (h : 200 < t.length) :
    (truncateContent t).length = 203 ∧ cs "..." <:+ truncateContent t := by
  have hsh : truncateContent t = t.take 200 ++ cs "..." := by
    rw [truncateContent, if_pos h]
  have h3 : (cs "...").length = 3 := rfl
  constructor
  · rw [hsh, List.length_append, List.length_take, h3]
    omega
  · rw [hsh]
    exact List.suffix_append _ _

/-- C3 witness: the amended theorem applied to the 500-character
body. -/
theorem truncateContent_fixed_cut_witness :
    200 < c3Body.length ∧ (truncateContent c3Body).length = 203 :=
  ⟨by decide, (truncateContent_fixed_cut c3Body (by decide)).1⟩

/-! ## Claim C7 — enqueue idempotence -/

/-- C7: under the UNIQUE-constraint invariant (at most one row per uri),
enqueuing the same candidate twice is a no-op the second time — the
duplicate is ignored without an error — and leaves exactly one queue
row holding that uri. -/
theorem addToQueue_idempotent (s : BotState) (sub : Submission)
    (h : s.queue.countP (fun e => e.uri == sub.uri) ≤ 1) :
    addToQueue (addToQueue s sub) sub = addToQueue s sub
    ∧ (addToQueue (addToQueue s sub) sub).queue.countP (fun e => e.uri == sub.uri) = 1 := by
  by_cases hq : s.queue.any (fun e => e.uri == sub.uri) = true
  · have haq : addToQueue s sub = s := by rw [addToQueue, if_pos hq]
    have hpos : 0 < s.queue.countP (fun e => e.uri == sub.uri) := by
      rw [List.countP_pos_iff]
      exact List.any_eq_true.mp hq
    rw [haq]
    refine ⟨haq, ?_⟩
    rw [haq]
    omega
  · have haq : addToQueue s sub =
        { s with
          queue := s.queue ++
            [{ id := s.nextId, author := sub.author, author_did := sub.authorDid,
               text := sub.text, uri := sub.uri, timestamp := sub.timestamp }],
          nextId := s.nextId + 1 } := by
      rw [addToQueue, if_neg hq]
    have hzero : s.queue.countP (fun e => e.uri == sub.uri) = 0 := by
      rw [List.countP_eq_zero]
      intro a ha hpa
      exact hq (List.any_eq_true.mpr ⟨a, ha, hpa⟩)
    have hq2 : ({ s with
          queue := s.queue ++
            [{ id := s.nextId, author := sub.author, author_did := sub.authorDid,
               text := sub.text, uri := sub.uri, timestamp := sub.timestamp }],
          nextId := s.nextId + 1 } : BotState).queue.any (fun e => e.uri == sub.uri) = true := by
      simp
    constructor
    · rw [haq, addToQueue, if_pos hq2]
    · rw [haq, addToQueue, if_pos hq2]
      simp [List.countP_append, hzero, List.countP_cons]

/-- C7 witness: the idempotence theorem at a concrete empty queue. -/
theorem addToQueue_idempotent_witness :
    (({ posted := [], followed := [], blocklist := [], queue := [], nextId := 1 } : BotState)).queue.countP
        (fun e => e.uri == cs "u1") ≤ 1
    ∧ addToQueue (addToQueue { posted := [], followed := [], blocklist := [], queue := [], nextId := 1 }
          { author := cs "alice", authorDid := cs "did:a", text := cs "my app launch", uri := cs "u1", timestamp := 10 })
        { author := cs "alice", authorDid := cs "did:a", text := cs "my app launch", uri := cs "u1", timestamp := 10 }
      = addToQueue { posted := [], followed := [], blocklist := [], queue := [], nextId := 1 }
          { author := cs "alice", authorDid := cs "did:a", text := cs "my app launch", uri := cs "u1", timestamp := 10 } :=
  ⟨by decide,
   (addToQueue_idempotent { posted := [], followed := [], blocklist := [], queue := [], nextId := 1 }
      { author := cs "alice", authorDid := cs "did:a", text := cs "my app launch", uri := cs "u1", timestamp := 10 }
      (by decide)).1⟩

/-! ## Claim C8 — peeking the oldest entry -/

/-- C8: `getNextFromQueue` is a pure read: it leaves the state
untouched, returns `none` exactly on the empty queue, returns a member
realizing the minimal timestamp, and — when one entry has a strictly
smaller timestamp than every other — returns precisely that entry. -/
theorem getNextFromQueue_peeks_oldest (s : BotState) :
    (getNextFromQueue s).2 = s
    ∧ (s.queue = [] → (getNextFromQueue s).1 = none)
    ∧ (∀ e, (getNextFromQueue s).1 = some e →
        e ∈ s.queue ∧ ∀ x ∈ s.queue, e.timestamp ≤ x.timestamp)
    ∧ (∀ e, e ∈ s.queue → (∀ x ∈ s.queue, x ≠ e → e.timestamp < x.timestamp) →
        (getNextFromQueue s).1 = some e)
    ∧ (s.queue ≠ [] → ((getNextFromQueue s).1).isSome = true) := by
  refine ⟨rfl, ?_, ?_, ?_, ?_⟩
  · intro h
    show minByTs s.queue = none
    rw [h]
    rfl
  · intro e he
    exact minByTs_mem_min he
  · intro e he hstrict
    have hne : s.queue ≠ [] := List.ne_nil_of_mem he
    obtain ⟨m, hm⟩ := Option.isSome_iff_exists.mp (minByTs_isSome hne)
    obtain ⟨hmm, hmin⟩ := minByTs_mem_min hm
    by_cases hme : m = e
    · rw [hme] at hm
      exact hm
    · exact absurd (Nat.lt_of_lt_of_le (hstrict m hmm hme) (hmin e he)) (Nat.lt_irrefl _)
  · intro h
    exact minByTs_isSome h

/-- The spec's peek scenario: three entries with timestamps 100, 50,
200. -/
def q100 : QueueEntry :=
  { id := 1, author := cs "a1", author_did := cs "d1", text := cs "t1", uri := cs "u1", timestamp := 100 }

def q50 : QueueEntry :=
  { id := 2, author := cs "a2", author_did := cs "d2", text := cs "t2", uri := cs "u2", timestamp := 50 }

def q200 : QueueEntry :=
  { id := 3, author := cs "a3", author_did := cs "d3", text := cs "t3", uri := cs "u3", timestamp := 200 }

def c8State : BotState :=
  { posted := [cs "u1", cs "u2", cs "u3"], followed := [], blocklist := [],
    queue := [q100, q50, q200], nextId := 4 }

/-- C8 witness: on the scenario queue the peek returns the
timestamp-50 entry and changes nothing. -/
theorem getNextFromQueue_peeks_oldest_witness :
    (getNextFromQueue c8State).1 = some q50 ∧ (getNextFromQueue c8State).2 = c8State :=
  ⟨(getNextFromQueue_peeks_oldest c8State).2.2.2.1 q50 (by decide) (by decide),
   (getNextFromQueue_peeks_oldest c8State).1⟩

/-! ## Claim C4 — autoFollow no-op conditions -/

/-- C4 (amended): `autoFollow` is a no-op — same state, no external
call — when the account id is empty or already recorded as followed.
(The Block Record is not consulted here; blocked authors are filtered
out earlier, at intake.) -/
theorem autoFollow_noop_empty_or_followed (env : Env) (s : BotState) (did : List Char)
    (h : did.isEmpty = true ∨ isFollowed s did = true) :
    autoFollow env s did = (s, []) := by
  rcases h with h | h
  · rw [autoFollow, if_pos h]
  · by_cases he : did.isEmpty = true
    · rw [autoFollow, if_pos he]
    · rw [autoFollow, if_neg he, if_pos h]

def c4Env : Env :=
  { profile := fun _ => some false, followOk := true, postOk := true, now := 0,
    ownHandle := cs "bot" }

def c4State : BotState :=
  { posted := [], followed := [], blocklist := [cs "did:blocked"], queue := [], nextId := 1 }

/-- C4 (counterexample): for an account that is present in the
blocklist but not yet followed, `autoFollow` is not a no-op — it issues
a profile lookup and a follow call and records the account as
followed: the blocklist condition claimed by the spec is absent from
the code. -/
theorem autoFollow_ignores_blocklist :
    isBlocked c4State (cs "did:blocked") = true
    ∧ autoFollow c4Env c4State (cs "did:blocked") ≠ (c4State, [])
    ∧ (autoFollow c4Env c4State (cs "did:blocked")).1.followed = [cs "did:blocked"]
    ∧ (autoFollow c4Env c4State (cs "did:blocked")).2
      = [ExtCall.getProfile (cs "did:blocked"), ExtCall.follow (cs "did:blocked")] := by
  refine ⟨rfl, ?_, rfl, rfl⟩
  decide

/-- C4 witness: the no-op cases at concrete inputs (empty id; already
followed id). -/
theorem autoFollow_noop_witness :
    autoFollow c4Env c4State [] = (c4State, [])
    ∧ autoFollow c4Env { c4State with followed := [cs "did:f"] } (cs "did:f")
      = ({ c4State with followed := [cs "did:f"] }, []) :=
  ⟨autoFollow_noop_empty_or_followed c4Env c4State [] (Or.inl rfl),
   autoFollow_noop_empty_or_followed c4Env { c4State with followed := [cs "did:f"] }
     (cs "did:f") (Or.inr rfl)⟩

/-! ## Claim C9 — publish failure leaves the queue unchanged -/

/-- C9: when the publish step fails, `postSpotlight` leaves the entire
state — in particular the queue and its size — unchanged, so the entry
stays available for the next cycle. -/
theorem postSpotlight_failure_leaves_queue (env : Env) (s : BotState)
    (h : env.postOk = false) :
    (postSpotlight env s).1 = s ∧ getQueueSize (postSpotlight env s).1 = getQueueSize s := by
  have hmain : (postSpotlight env s).1 = s := by
    unfold postSpotlight
    split
    · rfl
    · rw [if_neg (by simp [h])]
  exact ⟨hmain, by rw [hmain]⟩

def c9Env : Env :=
  { profile := fun _ => none, followOk := true, postOk := false, now := 0,
    ownHandle := cs "bot" }

def c9State : BotState :=
  { posted := [cs "u9"], followed := [], blocklist := [],
    queue := [{ id := 7, author := cs "a", author_did := cs "d", text := cs "hello there friends",
                uri := cs "u9", timestamp := 12 }],
    nextId := 8 }

/-- C9 witness: a failing publish on a one-entry queue changes
nothing. -/
theorem postSpotlight_failure_leaves_queue_witness :
    c9Env.postOk = false ∧ (postSpotlight c9Env c9State).1 = c9State :=
  ⟨rfl, (postSpotlight_failure_leaves_queue c9Env c9State rfl).1⟩

/-! ## Claim C1 — what a successful publish changes -/

/-- C1 (amended): a successful `postSpotlight` on the peeked entry `e`
(with the AUTOINCREMENT ids distinct) deletes exactly the row with
`e`'s id from the queue, keeps every other row, and leaves the
posted-set entirely unchanged — the entry's uri was inserted into the
posted-set at intake, not here. -/
theorem postSpotlight_success_removes_one (env : Env) (s : BotState) (e : QueueEntry)
    (hq : (getNextFromQueue s).1 = some e)
    (hok : env.postOk = true)
    (hid : (s.queue.map QueueEntry.id).Nodup) :
    (postSpotlight env s).1.queue = s.queue.filter (fun x => x.id != e.id)
    ∧ (postSpotlight env s).1.queue.length + 1 = s.queue.length
    ∧ e ∉ (postSpotlight env s).1.queue
    ∧ (∀ x ∈ s.queue, x ≠ e → x ∈ (postSpotlight env s).1.queue)
    ∧ (postSpotlight env s).1.posted = s.posted := by
  have hshape : (postSpotlight env s).1.queue = s.queue.filter (fun x => x.id != e.id)
      ∧ (postSpotlight env s).1.posted = s.posted := by
    unfold postSpotlight
    rw [show (getNextFromQueue s).1 = some e from hq]
    dsimp only
    rw [if_pos hok]
    by_cases hd : e.author_did.isEmpty = true
    · rw [if_pos hd]
      exact ⟨rfl, rfl⟩
    · rw [if_neg hd]
      obtain ⟨hfq, hfp, _⟩ :=
        autoFollow_fixes_rest env (removeFromQueue ((getNextFromQueue s).2) e.id) e.author_did
      exact ⟨hfq, hfp⟩
  obtain ⟨hfq, hfp⟩ := hshape
  have hmem : e ∈ s.queue := (minByTs_mem_min (hq : minByTs s.queue = some e)).1
  obtain ⟨hlen, hnot, hrest⟩ := filter_out_id hid hmem
  refine ⟨hfq, ?_, ?_, ?_, hfp⟩
  · rw [hfq]
    exact hlen
  · rw [hfq]
    exact hnot
  · intro x hx hxe
    rw [hfq]
    exact hrest x hx hxe

def c1Entry : QueueEntry :=
  { id := 1, author := cs "alice", author_did := [], text := cs "building my game",
    uri := cs "at://u1", timestamp := 5 }

def c1State : BotState :=
  { posted := [], followed := [], blocklist := [], queue := [c1Entry], nextId := 2 }

def c1Env : Env :=
  { profile := fun _ => none, followOk := true, postOk := true, now := 50,
    ownHandle := cs "bot" }

/-- C1 (counterexample): a publish that succeeds (the post call is
issued and the entry is removed) adds nothing to the posted-set — here
the posted-set stays empty, and in particular does not receive the
published entry's uri, contradicting the claim that `postSpotlight`
adds that uri to the posted-set. -/
theorem postSpotlight_does_not_touch_posted :
    c1Env.postOk = true
    ∧ (getNextFromQueue c1State).1 = some c1Entry
    ∧ (postSpotlight c1Env c1State).2.length = 1
    ∧ (postSpotlight c1Env c1State).1.queue = []
    ∧ (postSpotlight c1Env c1State).1.posted = []
    ∧ c1Entry.uri ∉ (postSpotlight c1Env c1State).1.posted := by
  decide

/-- C1 witness: the amended theorem at the concrete one-entry state. -/
theorem postSpotlight_success_removes_one_witness :
    (postSpotlight c1Env c1State).1.queue = c1State.queue.filter (fun x => x.id != c1Entry.id)
    ∧ (postSpotlight c1Env c1State).1.queue.length + 1 = c1State.queue.length
    ∧ (postSpotlight c1Env c1State).1.posted = c1State.posted := by
  have h := postSpotlight_success_removes_one c1Env c1State c1Entry rfl rfl (by decide)
  exact ⟨h.1, h.2.1, h.2.2.2.2⟩

/-! ## Claim C10 — queue uris live in the posted-set -/

/-- The invariant: every uri queued for publishing is already recorded
in the posted-set. -/
def queuePostedInv (s : BotState) : Prop := ∀ e ∈ s.queue, e.uri ∈ s.posted

/-- Membership in the posted-set survives `markAsPosted`. -/
theorem mem_posted_markAsPosted (s : BotState) (uri u : List Char) (h : u ∈ s.posted) :
    u ∈ (markAsPosted s uri).posted := by
  unfold markAsPosted
  dsimp only
  split
  · exact h
  · exact List.mem_append_left _ h

/-- `markAsPosted` puts its uri into the posted-set. -/
theorem self_mem_markAsPosted (s : BotState) (uri : List Char) :
    uri ∈ (markAsPosted s uri).posted := by
  unfold markAsPosted
  dsimp only
  split
  · rename_i hcon
    simpa [List.contains, List.elem_eq_mem] using hcon
  · exact List.mem_append_right _ (List.mem_cons_self _ _)

/-- The intake write pair — enqueue, then mark the same uri posted —
preserves the invariant. -/
theorem intake_preserves_inv (s : BotState) (sub : Submission) (h : queuePostedInv s) :
    queuePostedInv (markAsPosted (addToQueue s sub) sub.uri) := by
  intro e he
  by_cases hq : s.queue.any (fun x => x.uri == sub.uri) = true
  · have haq : addToQueue s sub = s := by rw [addToQueue, if_pos hq]
    rw [haq] at he ⊢
    exact mem_posted_markAsPosted _ _ _ (h e he)
  · have haq : addToQueue s sub =
        { s with
          queue := s.queue ++
            [{ id := s.nextId, author := sub.author, author_did := sub.authorDid,
               text := sub.text, uri := sub.uri, timestamp := sub.timestamp }],
          nextId := s.nextId + 1 } := by
      rw [addToQueue, if_neg hq]
    rw [haq] at he ⊢
    rcases List.mem_append.mp he with he | he
    · exact mem_posted_markAsPosted _ _ _ (h e he)
    · rw [List.mem_singleton] at he
      rw [he]
      exact self_mem_markAsPosted _ _

/-- `autoFollow` preserves the invariant (it never writes the queue or
the posted-set). -/
theorem autoFollow_preserves_inv (env : Env) (s : BotState) (did : List Char)
    (h : queuePostedInv s) : queuePostedInv (autoFollow env s did).1 := by
  intro e he
  obtain ⟨hq, hp, _⟩ := autoFollow_fixes_rest env s did
  rw [hq] at he
  rw [hp]
  exact h e he

/-- Whatever `postSpotlight` does, the resulting queue is a
filtered-by-id sub-queue (or the original) and the posted-set is
untouched. -/
theorem postSpotlight_queue_shape (env : Env) (s : BotState) :
    ((postSpotlight env s).1.queue = s.queue
      ∨ ∃ i, (postSpotlight env s).1.queue = s.queue.filter (fun x => x.id != i))
    ∧ (postSpotlight env s).1.posted = s.posted := by
  unfold postSpotlight
  split
  · exact ⟨Or.inl rfl, rfl⟩
  · next sub heq =>
    dsimp only
    by_cases hok : env.postOk = true
    · rw [if_pos hok]
      by_cases hd : sub.author_did.isEmpty = true
      · rw [if_pos hd]
        exact ⟨Or.inr ⟨sub.id, rfl⟩, rfl⟩
      · rw [if_neg hd]
        obtain ⟨hfq, hfp, _⟩ :=
          autoFollow_fixes_rest env (removeFromQueue ((getNextFromQueue s).2) sub.id)
            sub.author_did
        exact ⟨Or.inr ⟨sub.id, hfq⟩, hfp⟩
    · rw [if_neg hok]
      exact ⟨Or.inl rfl, rfl⟩

/-- C10: the invariant "every queued uri is in the posted-set" is
preserved by the three state-changing operations (search intake,
notification intake, publish); moreover a uri already recorded in the
posted-set is never re-queued — `addPostIfRelevant` is a complete no-op
on it, and the notification step leaves the queue unchanged. -/
theorem queue_uris_in_posted (env : Env) (p : Post) (n : Notif) (s : BotState)
    (h : queuePostedInv s) :
    queuePostedInv (addPostIfRelevant env p s).1
    ∧ queuePostedInv (checkNotifStep env n s).1
    ∧ queuePostedInv (postSpotlight env s).1
    ∧ (∀ u, p.uri = some u → isPosted s u = true → addPostIfRelevant env p s = (s, []))
    ∧ (isPosted s n.uri = true → (checkNotifStep env n s).1.queue = s.queue) := by
  refine ⟨?_, ?_, ?_, ?_, ?_⟩
  · unfold addPostIfRelevant
    dsimp only
    repeat' split
    all_goals
      first
      | exact h
      | exact autoFollow_preserves_inv _ _ _ (intake_preserves_inv _ _ h)
  · unfold checkNotifStep
    dsimp only
    repeat' split
    all_goals
      first
      | exact h
      | exact fun e he => h e he
      | exact autoFollow_preserves_inv _ _ _ (intake_preserves_inv _ _ h)
  · obtain ⟨hq, hp⟩ := postSpotlight_queue_shape env s
    intro e he
    rw [hp]
    rcases hq with hq | ⟨i, hq⟩
    · rw [hq] at he
      exact h e he
    · rw [hq] at he
      exact h e (List.mem_of_mem_filter he)
  · intro u hu hp2
    unfold addPostIfRelevant
    rw [hu]
    dsimp only
    by_cases hemp : u.isEmpty = true
    · rw [if_pos (by simp [hemp])]
    · rw [if_neg (by simp [hemp])]
      simp only [Option.getD_some]
      rw [if_pos hp2]
  · intro hp2
    unfold checkNotifStep
    dsimp only
    repeat' split
    all_goals rfl

def c10Entry : QueueEntry :=
  { id := 1, author := cs "bob", author_did := cs "did:b", text := cs "my app #spotlight",
    uri := cs "at://x", timestamp := 3 }

def c10State : BotState :=
  { posted := [cs "at://x"], followed := [], blocklist := [], queue := [c10Entry], nextId := 2 }

def c10Post : Post :=
  { uri := some (cs "at://x"), recordText := some (cs "check out my app #promote"),
    text := none, authorHandle := some (cs "bob"), authorDid := some (cs "did:b") }

def c10Notif : Notif :=
  { reason := cs "mention", recordText := some (cs "please #spotlight my project"),
    authorDid := cs "did:b", authorHandle := cs "bob", uri := cs "at://x" }

def c10Env : Env :=
  { profile := fun _ => some true, followOk := true, postOk := true, now := 9,
    ownHandle := cs "zz" }

/-- C10 witness: the invariant theorem applied at a concrete
one-entry state whose queued uri sits in the posted-set. -/
theorem queue_uris_in_posted_witness :
    queuePostedInv c10State
    ∧ queuePostedInv (postSpotlight c10Env c10State).1
    ∧ addPostIfRelevant c10Env c10Post c10State = (c10State, [])
    ∧ (checkNotifStep c10Env c10Notif c10State).1.queue = c10State.queue := by
  have h : queuePostedInv c10State := by
    unfold queuePostedInv
    decide
  have hthm := queue_uris_in_posted c10Env c10Post c10Notif c10State h
  exact ⟨h, hthm.2.2.1, hthm.2.2.2.1 (cs "at://x") rfl (by decide), hthm.2.2.2.2 (by decide)⟩

end SpotlightBot
